import Mathlib

/-!
Shallow embedding of src/project.rs of the rustlings rust-project.json
generator. Pure functions mirror the Rust methods; the environment is a
map from variable names to optional values, the stdout of the external
rustc invocation is a parameter (already decoded, as by
String::from_utf8_lossy), and the glob scan result is the list of paths
the iterator yields. The filesystem is a map from path strings to
optional file contents.
-/

namespace Rustlings

/-- Dependency reference of rust-project.json. The field crate_index is an
i32 in the source, carried here as Int; serde renames it to the key crate. -/
structure DepData where
  crate_index : Int
  name : String
deriving Repr, DecidableEq

/-- Compilation unit entry of rust-project.json, as in src/project.rs. -/
structure Crate where
  root_module : String
  edition : String
  deps : List DepData
  cfg : List String
deriving Repr, DecidableEq

/-- Root structure of rust-project.json plus the internal cargo_tokio field,
which carries serde(skip) and is never serialized. -/
structure RustAnalyzerProject where
  sysroot_src : String
  cargo_tokio : String
  crates : List Crate
deriving Repr, DecidableEq

/-- RustAnalyzerProject::new -/
def RustAnalyzerProject.new : RustAnalyzerProject :=
  { sysroot_src := "", cargo_tokio := "", crates := [] }

/-- Splitting of a character list at every character satisfying the
predicate, keeping empty pieces, as Rust str::split does. -/
def splitPred (p : Char → Bool) : List Char → List (List Char)
  | [] => [[]]
  | c :: cs =>
    let rest := splitPred p cs
    if p c then [] :: rest
    else
      match rest with
      | [] => [[c]]
      | r :: rs => (c :: r) :: rs

/-- Boolean prefix test on strings, as Rust str::starts_with. -/
def strStartsWith (s pre : String) : Bool :=
  pre.data.isPrefixOf s.data

/-- Boolean suffix test on strings. -/
def strEndsWith (s suf : String) : Bool :=
  suf.data.isSuffixOf s.data

/-- Last slash-separated component of a path string, modelling Rust
Path::file_name on Unix paths. -/
def fileName (p : String) : String :=
  ⟨(splitPred (fun c => c = '/') p.data).getLastD []⟩

/-- Extension of a path, modelling Rust Path::extension: the portion of the
file name after its last dot, none when the file name has no dot or its only
dot is the leading one. -/
def extension (p : String) : Option String :=
  match splitPred (fun c => c = '.') (fileName p).data with
  | [] => none
  | [_] => none
  | first :: rest =>
    if first = [] && rest.length == 1 then none
    else some ⟨rest.getLastD []⟩

/-- Rust PathBuf::push of a relative component on Unix: a separator is
inserted unless the base is empty or already ends with one. -/
def pathJoin (base comp : String) : String :=
  if base = "" then comp
  else if strEndsWith base "/" then base ++ comp
  else base ++ "/" ++ comp

/-- Iterated pathJoin, modelling a chain of Path::join calls. -/
def pathJoinAll (base : String) (comps : List String) : String :=
  comps.foldl pathJoin base

/-- RustAnalyzerProject::path_to_json. The Rust method returns Result but
every path through it yields Ok, so the wrapper is dropped; the method
mutates self by pushing at most one crate. -/
def path_to_json (p : RustAnalyzerProject) (path : String) : RustAnalyzerProject :=
  match extension path with
  | some ext =>
    if ext = "rs" then
      let c : Crate :=
        { root_module := path, edition := "2021", deps := [], cfg := ["test"] }
      let c :=
        if strStartsWith path "exercises/async" then
          { c with deps := [{ crate_index := 0, name := "tokio" }] }
        else c
      { p with crates := p.crates ++ [c] }
    else p
  | none => p

/-- Crate that path_to_json appends for a given path, when it appends one;
this restates the crate construction of lines 56 to 66 of project.rs as a
classifier so theorems can speak of the discovered units. -/
def classify (path : String) : Option Crate :=
  match extension path with
  | some ext =>
    if ext = "rs" then
      let c : Crate :=
        { root_module := path, edition := "2021", deps := [], cfg := ["test"] }
      let c :=
        if strStartsWith path "exercises/async" then
          { c with deps := [{ crate_index := 0, name := "tokio" }] }
        else c
      some c
    else none
  | none => none

/-- Feature flag list of the synthetic tokio crate, from add_tokio_to_crates. -/
def tokioFeatureFlags : List String :=
  ["feature=\"fs\"", "feature=\"io-util\"", "feature=\"io-std\"",
   "feature=\"macros\"", "feature=\"net\"", "feature=\"parking_lot\"",
   "feature=\"process\"", "feature=\"rt\"", "feature=\"rt-multi-thread\"",
   "feature=\"signal\"", "feature=\"sync\"", "feature=\"time\""]

/-- Crate pushed by add_tokio_to_crates, with the given root module path. -/
def tokioCrate (root : String) : Crate :=
  { root_module := root, edition := "2021", deps := [], cfg := tokioFeatureFlags }

/-- RustAnalyzerProject::add_tokio_to_crates -/
def add_tokio_to_crates (p : RustAnalyzerProject) : RustAnalyzerProject :=
  { p with crates := p.crates ++ [tokioCrate p.cargo_tokio] }

/-- RustAnalyzerProject::exercises_to_json: push the tokio crate, then feed
every scanned path to path_to_json. The scan parameter is the sequence of
paths the glob iterator yields; glob and per-entry errors abort the run and
are outside this model, which describes the successful runs the claims are
about. -/
def exercises_to_json (p : RustAnalyzerProject) (scan : List String) : RustAnalyzerProject :=
  scan.foldl path_to_json (add_tokio_to_crates p)

/-- Result of get_sysroot_src together with a trace of whether the external
rustc process was spawned. -/
structure SysrootOutcome where
  proj : RustAnalyzerProject
  invoked_rustc : Bool
deriving Repr

/-- Rust str::split_whitespace: split on whitespace and drop empty pieces. -/
def splitWhitespaceTokens (s : String) : List String :=
  ((splitPred Char.isWhitespace s.data).filter (fun t => t ≠ [])).map
    (fun l => ⟨l⟩)

/-- RustAnalyzerProject::get_sysroot_src. The env parameter models
std::env::var (some for a present variable); rustcStdout models the decoded
stdout of the rustc sysroot query. The returned flag records whether that
external process was invoked. -/
def get_sysroot_src (p : RustAnalyzerProject) (env : String → Option String)
    (rustcStdout : String) : SysrootOutcome :=
  match env "RUST_SRC_PATH" with
  | some path => { proj := { p with sysroot_src := path }, invoked_rustc := false }
  | none =>
    let toolchain := rustcStdout
    let toolchain := (splitWhitespaceTokens toolchain).headD toolchain
    let src := pathJoinAll toolchain ["lib", "rustlib", "src", "rust", "library"]
    { proj := { p with sysroot_src := src }, invoked_rustc := true }

/-- Fixed path segments of get_cargo_tokio_path below the home directory. -/
def cargoTokioSegments : List String :=
  [".cargo", "registry", "src", "github.com-1ecc6299db9ec823",
   "tokio-1.28.1", "src", "lib.rs"]

/-- RustAnalyzerProject::get_cargo_tokio_path: pure string construction from
the HOME variable (or the literal fallback) and fixed segments. -/
def get_cargo_tokio_path (p : RustAnalyzerProject) (env : String → Option String) :
    RustAnalyzerProject :=
  let home := (env "HOME").getD "~/"
  { p with cargo_tokio := pathJoinAll home cargoTokioSegments }

/-- Value space of the serde data model as serde_json sees it: strings,
integers, sequences, structs (string-keyed fields in declaration order) and
maps with arbitrary serialized keys. serde_json rejects a map entry whose key
is not a string at serialization time; for the types in project.rs that is
the only reachable error branch behind serde_json::to_vec. -/
inductive JValue where
  | str : String → JValue
  | int : Int → JValue
  | arr : List JValue → JValue
  | obj : List (String × JValue) → JValue
  | map : List (JValue × JValue) → JValue
deriving Repr

/-- Escape of one character inside a JSON string literal. -/
def escapeJsonChar (c : Char) : String :=
  if c = '"' then "\\\"" else if c = '\\' then "\\\\" else String.singleton c

/-- Escape of a JSON string body. -/
def escapeJson (s : String) : String :=
  String.join (s.toList.map escapeJsonChar)

/-- Rendering of a JSON string literal. -/
def renderStr (s : String) : String := "\"" ++ escapeJson s ++ "\""

/-- Comma-joined concatenation of rendered pieces. -/
def joinComma : List String → String
  | [] => ""
  | [x] => x
  | x :: xs => x ++ "," ++ joinComma xs

mutual

/-- Rendering of a serde value to JSON text, modelling serde_json
serialization; the error case is the non-string map key rejection. -/
def renderV : JValue → Except String String
  | .str s => .ok (renderStr s)
  | .int n => .ok (toString n)
  | .arr l =>
    match renderArr l with
    | .ok parts => .ok ("[" ++ joinComma parts ++ "]")
    | .error e => .error e
  | .obj fields =>
    match renderFields fields with
    | .ok parts => .ok ("\x7b" ++ joinComma parts ++ "\x7d")
    | .error e => .error e
  | .map entries =>
    match renderEntries entries with
    | .ok parts => .ok ("\x7b" ++ joinComma parts ++ "\x7d")
    | .error e => .error e

/-- Rendering of the elements of a JSON array. -/
def renderArr : List JValue → Except String (List String)
  | [] => .ok []
  | v :: vs =>
    match renderV v, renderArr vs with
    | .ok s, .ok rest => .ok (s :: rest)
    | .error e, _ => .error e
    | _, .error e => .error e

/-- Rendering of struct fields, whose keys are strings by construction. -/
def renderFields : List (String × JValue) → Except String (List String)
  | [] => .ok []
  | (k, v) :: fs =>
    match renderV v, renderFields fs with
    | .ok s, .ok rest => .ok ((renderStr k ++ ":" ++ s) :: rest)
    | .error e, _ => .error e
    | _, .error e => .error e

/-- Rendering of map entries; a non-string key is the serde_json error. -/
def renderEntries : List (JValue × JValue) → Except String (List String)
  | [] => .ok []
  | (JValue.str ks, v) :: es =>
    match renderV v, renderEntries es with
    | .ok s, .ok rest => .ok ((renderStr ks ++ ":" ++ s) :: rest)
    | .error e, _ => .error e
    | _, .error e => .error e
  | (_, _) :: _ => .error "key must be a string"

end

/-- Serde encoding of DepData: crate_index is renamed to the key crate. -/
def DepData.toJson (d : DepData) : JValue :=
  .obj [("crate", .int d.crate_index), ("name", .str d.name)]

/-- Serde encoding of Crate, fields in declaration order. -/
def Crate.toJson (c : Crate) : JValue :=
  .obj [("root_module", .str c.root_module), ("edition", .str c.edition),
        ("deps", .arr (c.deps.map DepData.toJson)),
        ("cfg", .arr (c.cfg.map JValue.str))]

/-- Serde encoding of RustAnalyzerProject: cargo_tokio carries serde(skip)
and is omitted; the remaining fields follow declaration order. -/
def RustAnalyzerProject.toJson (p : RustAnalyzerProject) : JValue :=
  .obj [("sysroot_src", .str p.sysroot_src),
        ("crates", .arr (p.crates.map Crate.toJson))]

/-- serde_json::to_vec applied to a RustAnalyzerProject, as bytes of text. -/
def serde_json_to_vec (p : RustAnalyzerProject) : Except String String :=
  renderV p.toJson

/-- Fixed output path of write_to_disk. -/
def rustProjectJsonPath : String := "./rust-project.json"

/-- RustAnalyzerProject::write_to_disk over a filesystem modelled as a map
from path to contents. The error case models the expect panic behind
serialization failure; std::fs::write fully replaces the contents at the
fixed path, and its own I/O failure mode is outside this model. -/
def write_to_disk (p : RustAnalyzerProject) (fs : String → Option String) :
    Except String (String → Option String) :=
  match serde_json_to_vec p with
  | .ok bytes => .ok (fun q => if q = rustProjectJsonPath then some bytes else fs q)
  | .error e => .error e

/-- Environment with RUST_SRC_PATH present but set to the empty string. -/
def envEmptyOverride : String → Option String :=
  fun k => if k = "RUST_SRC_PATH" then some "" else none

/-- Environment with RUST_SRC_PATH set to /tmp/fake-sysroot. -/
def envFakeSysroot : String → Option String :=
  fun k => if k = "RUST_SRC_PATH" then some "/tmp/fake-sysroot" else none

/-- Keys of a serialized struct, in order; empty for non-struct values. -/
def objKeys : JValue → List String
  | .obj fields => fields.map Prod.fst
  | _ => []

/-- Small concrete document used to instantiate universally quantified
serialization theorems. -/
def exampleDoc : RustAnalyzerProject :=
  { sysroot_src := "/s", cargo_tokio := "ignored",
    crates := [{ root_module := "exercises/async/foo.rs", edition := "2021",
                 deps := [{ crate_index := 0, name := "tokio" }],
                 cfg := ["test"] }] }

theorem path_to_json_classify (p : RustAnalyzerProject) (path : String) :
    path_to_json p path = { p with crates := p.crates ++ (classify path).toList } := by
  unfold path_to_json classify
  cases h : extension path with
  | none => simp
  | some ext =>
    by_cases he : ext = "rs" <;> simp [he]

theorem foldl_path_to_json_crates (scan : List String) :
    ∀ q : RustAnalyzerProject,
      (scan.foldl path_to_json q).crates = q.crates ++ scan.filterMap classify := by
  induction scan with
  | nil => intro q; simp
  | cons a l ih =>
    intro q
    rw [List.foldl_cons, ih, path_to_json_classify]
    cases h : classify a <;> simp [List.filterMap_cons, h]

theorem exercises_to_json_crates (p : RustAnalyzerProject) (scan : List String) :
    (exercises_to_json p scan).crates =
      p.crates ++ [tokioCrate p.cargo_tokio] ++ scan.filterMap classify := by
  unfold exercises_to_json
  rw [foldl_path_to_json_crates]
  rfl

/-- C1: for every document produced by one full generation run
(get_cargo_tokio_path then exercises_to_json on a fresh RustAnalyzerProject)
the crates sequence is exactly the synthetic tokio crate followed by the
units classified from the scanned paths, so exactly one synthetic unit
exists and it precedes every discovered unit; it has zero dependencies and
its cfg equals, as a set, the fixed twelve-element feature-flag set. -/
theorem tokio_unit_unique_first (env : String → Option String) (scan : List String) :
    (exercises_to_json (get_cargo_tokio_path RustAnalyzerProject.new env) scan).crates
        = tokioCrate (pathJoinAll ((env "HOME").getD "~/") cargoTokioSegments)
            :: scan.filterMap classify
      ∧ (∀ root : String, (tokioCrate root).deps = []
          ∧ ∀ s : String, s ∈ (tokioCrate root).cfg ↔
              s ∈ ["feature=\"fs\"", "feature=\"io-util\"", "feature=\"io-std\"",
                   "feature=\"macros\"", "feature=\"net\"", "feature=\"parking_lot\"",
                   "feature=\"process\"", "feature=\"rt\"", "feature=\"rt-multi-thread\"",
                   "feature=\"signal\"", "feature=\"sync\"", "feature=\"time\""]) := by
  refine ⟨?_, fun root => ⟨rfl, fun s => Iff.rfl⟩⟩
  rw [exercises_to_json_crates]
  simp [get_cargo_tokio_path, RustAnalyzerProject.new]

/-- C2: for every scanned path with extension rs whose string form starts
with the prefix exercises/async, the appended compilation unit carries
exactly one dependency reference, with integer index 0 and name tokio. -/
theorem async_unit_single_tokio_dep (p : RustAnalyzerProject) (path : String)
    (hrs : extension path = some "rs")
    (hasync : strStartsWith path "exercises/async" = true) :
    (path_to_json p path).crates =
      p.crates ++ [{ root_module := path, edition := "2021",
                     deps := [{ crate_index := 0, name := "tokio" }],
                     cfg := ["test"] }] := by
  unfold path_to_json
  rw [hrs]
  simp [hasync]

theorem async_unit_single_tokio_dep_witness :
    extension "exercises/async/foo.rs" = some "rs"
      ∧ strStartsWith "exercises/async/foo.rs" "exercises/async" = true
      ∧ (path_to_json RustAnalyzerProject.new "exercises/async/foo.rs").crates =
          [{ root_module := "exercises/async/foo.rs", edition := "2021",
             deps := [{ crate_index := 0, name := "tokio" }], cfg := ["test"] }] :=
  ⟨rfl, rfl,
    async_unit_single_tokio_dep RustAnalyzerProject.new "exercises/async/foo.rs" rfl rfl⟩

/-- C3: for every scanned path with extension rs whose string form does not
start with the prefix exercises/async, the appended compilation unit has an
empty deps sequence. -/
theorem nonasync_unit_no_deps (p : RustAnalyzerProject) (path : String)
    (hrs : extension path = some "rs")
    (hout : strStartsWith path "exercises/async" = false) :
    (path_to_json p path).crates =
      p.crates ++ [{ root_module := path, edition := "2021",
                     deps := [], cfg := ["test"] }] := by
  unfold path_to_json
  rw [hrs]
  simp [hout]

theorem nonasync_unit_no_deps_witness :
    extension "exercises/basics/bar.rs" = some "rs"
      ∧ strStartsWith "exercises/basics/bar.rs" "exercises/async" = false
      ∧ (path_to_json RustAnalyzerProject.new "exercises/basics/bar.rs").crates =
          [{ root_module := "exercises/basics/bar.rs", edition := "2021",
             deps := [], cfg := ["test"] }] :=
  ⟨rfl, rfl,
    nonasync_unit_no_deps RustAnalyzerProject.new "exercises/basics/bar.rs" rfl rfl⟩

/-- C4: every compilation unit the classifier creates from a discovered file
has the baseline flag test in its cfg and edition equal to the constant 2021;
hence edition is identical across all discovered units of a document. -/
theorem discovered_unit_cfg_edition (path : String) (c : Crate)
    (h : classify path = some c) :
    ("test" ∈ c.cfg ∧ c.edition = "2021")
      ∧ ∀ q : String, ∀ d : Crate, classify q = some d → d.edition = c.edition := by
  have hedit : ∀ r : String, ∀ e : Crate, classify r = some e →
      "test" ∈ e.cfg ∧ e.edition = "2021" := by
    intro r e he
    unfold classify at he
    cases hx : extension r with
    | none => rw [hx] at he; cases he
    | some ext =>
      rw [hx] at he
      by_cases hrs : ext = "rs"
      · simp [hrs] at he
        by_cases ha : strStartsWith r "exercises/async" = true <;>
          simp [ha] at he <;> simp [← he]
      · simp [hrs] at he
  refine ⟨hedit path c h, fun q d hd => ?_⟩
  rw [(hedit q d hd).2, (hedit path c h).2]

theorem discovered_unit_cfg_edition_witness :
    classify "exercises/basics/bar.rs" =
        some { root_module := "exercises/basics/bar.rs", edition := "2021",
               deps := [], cfg := ["test"] }
      ∧ ("test" ∈ (["test"] : List String)
          ∧ ("2021" : String) = "2021") :=
  ⟨rfl,
    (discovered_unit_cfg_edition "exercises/basics/bar.rs"
      { root_module := "exercises/basics/bar.rs", edition := "2021",
        deps := [], cfg := ["test"] } rfl).1⟩

/-- C5 counterexample: with RUST_SRC_PATH present but empty, get_sysroot_src
still uses the value verbatim (sysroot_src becomes the empty string) and
does not invoke the external toolchain query, refuting the claim that the
verbatim path is taken exactly when the variable is present and non-empty. -/
theorem sysroot_override_empty_counterexample :
    envEmptyOverride "RUST_SRC_PATH" = some ""
      ∧ (get_sysroot_src RustAnalyzerProject.new envEmptyOverride
          "/toolchain").invoked_rustc = false
      ∧ (get_sysroot_src RustAnalyzerProject.new envEmptyOverride
          "/toolchain").proj.sysroot_src = "" :=
  ⟨rfl, rfl, rfl⟩

/-- C5 amended: get_sysroot_src uses the RUST_SRC_PATH value verbatim as
sysroot_src, without validating that the path exists and without invoking
the external toolchain query, exactly when the variable is present (even
when its value is empty); when the variable is absent the external query is
invoked. In particular a value of /tmp/fake-sysroot is copied exactly. -/
theorem sysroot_override_verbatim (p : RustAnalyzerProject)
    (env : String → Option String) (stdout : String) :
    (∀ v : String, env "RUST_SRC_PATH" = some v →
        (get_sysroot_src p env stdout).invoked_rustc = false
          ∧ (get_sysroot_src p env stdout).proj.sysroot_src = v)
      ∧ (env "RUST_SRC_PATH" = none →
          (get_sysroot_src p env stdout).invoked_rustc = true) := by
  constructor
  · intro v hv
    unfold get_sysroot_src
    rw [hv]
    exact ⟨rfl, rfl⟩
  · intro hn
    unfold get_sysroot_src
    rw [hn]

theorem sysroot_override_verbatim_witness :
    envFakeSysroot "RUST_SRC_PATH" = some "/tmp/fake-sysroot"
      ∧ (get_sysroot_src RustAnalyzerProject.new envFakeSysroot
          "ignored").invoked_rustc = false
      ∧ (get_sysroot_src RustAnalyzerProject.new envFakeSysroot
          "ignored").proj.sysroot_src = "/tmp/fake-sysroot" :=
  ⟨rfl,
    ((sysroot_override_verbatim RustAnalyzerProject.new envFakeSysroot
      "ignored").1 "/tmp/fake-sysroot" rfl).1,
    ((sysroot_override_verbatim RustAnalyzerProject.new envFakeSysroot
      "ignored").1 "/tmp/fake-sysroot" rfl).2⟩

theorem get_sysroot_src_none (p : RustAnalyzerProject)
    (env : String → Option String) (stdout : String)
    (hn : env "RUST_SRC_PATH" = none) :
    get_sysroot_src p env stdout =
      ⟨{ p with sysroot_src := pathJoinAll ((splitWhitespaceTokens stdout).headD stdout) ["lib", "rustlib", "src", "rust", "library"] }, true⟩ := by
  simp [get_sysroot_src, hn]

/-- C6: without the override, get_sysroot_src invokes the external rustc
query, takes the first whitespace-delimited token of its decoded stdout as
the toolchain root and joins the fixed segments lib/rustlib/src/rust/library
onto it; when stdout holds no whitespace-delimited token the raw decoded
output itself is the root, and the run does not fail. -/
theorem sysroot_from_rustc_stdout (p : RustAnalyzerProject)
    (env : String → Option String) (stdout : String)
    (h : env "RUST_SRC_PATH" = none) :
    (get_sysroot_src p env stdout).invoked_rustc = true
      ∧ (get_sysroot_src p env stdout).proj.sysroot_src =
          pathJoinAll ((splitWhitespaceTokens stdout).headD stdout)
            ["lib", "rustlib", "src", "rust", "library"]
      ∧ (splitWhitespaceTokens stdout = [] →
          (get_sysroot_src p env stdout).proj.sysroot_src =
            pathJoinAll stdout ["lib", "rustlib", "src", "rust", "library"]) := by
  refine ⟨?_, ?_, fun hempty => ?_⟩
  · rw [get_sysroot_src_none p env stdout h]
  · rw [get_sysroot_src_none p env stdout h]
  · rw [get_sysroot_src_none p env stdout h]
    simp [hempty]

theorem sysroot_from_rustc_stdout_witness :
    ((fun _ : String => (none : Option String)) "RUST_SRC_PATH" = none)
      ∧ (get_sysroot_src RustAnalyzerProject.new (fun _ => none)
          "/tc extra").invoked_rustc = true
      ∧ (get_sysroot_src RustAnalyzerProject.new (fun _ => none)
          "/tc extra").proj.sysroot_src = "/tc/lib/rustlib/src/rust/library" :=
  ⟨rfl,
    (sysroot_from_rustc_stdout RustAnalyzerProject.new (fun _ => none)
      "/tc extra" rfl).1,
    by
      rw [(sysroot_from_rustc_stdout RustAnalyzerProject.new (fun _ => none)
        "/tc extra" rfl).2.1]
      rfl⟩

theorem get_cargo_tokio_eq (p : RustAnalyzerProject)
    (env : String → Option String) :
    (get_cargo_tokio_path p env).cargo_tokio =
      pathJoinAll ((env "HOME").getD "~/") cargoTokioSegments := by
  simp [get_cargo_tokio_path]

/-- C8: get_cargo_tokio_path is pure string construction: the synthetic
root module path equals the HOME value (or the literal fallback when HOME is
absent) joined with the fixed registry segments down to
tokio-1.28.1/src/lib.rs, as a function of the environment alone. -/
theorem cargo_tokio_pure_construction (p : RustAnalyzerProject)
    (env : String → Option String) :
    (get_cargo_tokio_path p env).cargo_tokio =
        pathJoinAll ((env "HOME").getD "~/")
          [".cargo", "registry", "src", "github.com-1ecc6299db9ec823",
           "tokio-1.28.1", "src", "lib.rs"]
      ∧ (env "HOME" = none →
          (get_cargo_tokio_path p env).cargo_tokio =
            "~/.cargo/registry/src/github.com-1ecc6299db9ec823/tokio-1.28.1/src/lib.rs")
      ∧ (∀ h : String, env "HOME" = some h →
          (get_cargo_tokio_path p env).cargo_tokio =
            pathJoinAll h
              [".cargo", "registry", "src", "github.com-1ecc6299db9ec823",
               "tokio-1.28.1", "src", "lib.rs"]) := by
  refine ⟨?_, fun hn => ?_, fun h hv => ?_⟩
  · rw [get_cargo_tokio_eq]
    simp only [cargoTokioSegments]
  · rw [get_cargo_tokio_eq, hn]
    rfl
  · rw [get_cargo_tokio_eq, hv]
    simp only [Option.getD_some, cargoTokioSegments]

theorem cargo_tokio_pure_construction_witness :
    ((fun k : String => if k = "HOME" then some "/home/user" else none) "HOME"
        = some "/home/user")
      ∧ (get_cargo_tokio_path RustAnalyzerProject.new
          (fun k => if k = "HOME" then some "/home/user" else none)).cargo_tokio =
          "/home/user/.cargo/registry/src/github.com-1ecc6299db9ec823/tokio-1.28.1/src/lib.rs" :=
  ⟨rfl,
    by
      rw [(cargo_tokio_pure_construction RustAnalyzerProject.new
        (fun k => if k = "HOME" then some "/home/user" else none)).2.2
        "/home/user" rfl]
      rfl⟩

/-- C7: write_to_disk targets the single fixed relative path
./rust-project.json, fully overwriting whatever the filesystem held there
and leaving every other path untouched; the serialized document has exactly
the top-level field names sysroot_src and crates (cargo_tokio is never
serialized), each crate serializes with the fields root_module, edition,
deps and cfg, and each dependency as the fields crate and name where crate
carries the integer index. -/
theorem write_fixed_path_and_fields (pr : RustAnalyzerProject)
    (fs : String → Option String) :
    rustProjectJsonPath = "./rust-project.json"
      ∧ (∀ g : String → Option String, write_to_disk pr fs = .ok g →
          (∃ bytes, serde_json_to_vec pr = .ok bytes
              ∧ g rustProjectJsonPath = some bytes)
            ∧ ∀ q : String, q ≠ rustProjectJsonPath → g q = fs q)
      ∧ objKeys (RustAnalyzerProject.toJson pr) = ["sysroot_src", "crates"]
      ∧ "cargo_tokio" ∉ objKeys (RustAnalyzerProject.toJson pr)
      ∧ (∀ c ∈ pr.crates,
          objKeys (Crate.toJson c) = ["root_module", "edition", "deps", "cfg"])
      ∧ (∀ c ∈ pr.crates, ∀ d ∈ c.deps,
          DepData.toJson d =
            JValue.obj [("crate", JValue.int d.crate_index),
                        ("name", JValue.str d.name)]
            ∧ objKeys (DepData.toJson d) = ["crate", "name"]) := by
  refine ⟨rfl, ?_, rfl, by simp [RustAnalyzerProject.toJson, objKeys], ?_, ?_⟩
  · intro g hg
    unfold write_to_disk at hg
    cases h : serde_json_to_vec pr with
    | error e => rw [h] at hg; cases hg
    | ok bytes =>
      rw [h] at hg
      have hge : g = fun q => if q = rustProjectJsonPath then some bytes else fs q :=
        (Except.ok.injEq _ _).mp hg.symm
      subst hge
      refine ⟨⟨bytes, rfl, by simp⟩, fun q hq => by simp [hq]⟩
  · intro c _
    rfl
  · intro c _ d _
    exact ⟨rfl, rfl⟩

theorem write_fixed_path_and_fields_witness :
    objKeys (Crate.toJson
        { root_module := "exercises/async/foo.rs", edition := "2021",
          deps := [{ crate_index := 0, name := "tokio" }], cfg := ["test"] })
        = ["root_module", "edition", "deps", "cfg"]
      ∧ objKeys (DepData.toJson { crate_index := 0, name := "tokio" })
          = ["crate", "name"] :=
  ⟨(write_fixed_path_and_fields exampleDoc (fun _ => none)).2.2.2.2.1 _
      (List.Mem.head []),
    ((write_fixed_path_and_fields exampleDoc (fun _ => none)).2.2.2.2.2 _
      (List.Mem.head []) _ (List.Mem.head [])).2⟩

theorem renderArr_str_ok (l : List String) :
    renderArr (l.map JValue.str) = .ok (l.map renderStr) := by
  induction l with
  | nil => rfl
  | cons a t ih => simp [renderArr, renderV, ih]

theorem renderArr_deps_ok (ds : List DepData) :
    ∃ out, renderArr (ds.map DepData.toJson) = .ok out := by
  induction ds with
  | nil => exact ⟨[], rfl⟩
  | cons d t ih =>
    obtain ⟨out, hout⟩ := ih
    simp only [List.map_cons, renderArr, DepData.toJson, renderV, renderFields, hout]
    exact ⟨_, rfl⟩

theorem renderV_crate_ok (c : Crate) :
    ∃ s, renderV (Crate.toJson c) = .ok s := by
  obtain ⟨out, hout⟩ := renderArr_deps_ok c.deps
  simp only [Crate.toJson, renderV, renderFields, hout, renderArr_str_ok c.cfg]
  exact ⟨_, rfl⟩

theorem renderArr_crates_ok (cs : List Crate) :
    ∃ out, renderArr (cs.map Crate.toJson) = .ok out := by
  induction cs with
  | nil => exact ⟨[], rfl⟩
  | cons c t ih =>
    obtain ⟨out, hout⟩ := ih
    obtain ⟨s, hs⟩ := renderV_crate_ok c
    simp only [List.map_cons, renderArr, hs, hout]
    exact ⟨_, rfl⟩

theorem serde_json_to_vec_ok (p : RustAnalyzerProject) :
    ∃ bytes, serde_json_to_vec p = .ok bytes := by
  obtain ⟨out, hout⟩ := renderArr_crates_ok p.crates
  simp only [serde_json_to_vec, RustAnalyzerProject.toJson, renderV, renderFields, hout]
  exact ⟨_, rfl⟩

/-- C10: for every document the pipeline can hand to write_to_disk the
serialization step succeeds, so the panic branch behind the serialization
expectation is unreachable and only the file write itself can fail. The
statement is proved for every RustAnalyzerProject value, which includes
every pipeline-assembled document. -/
theorem serialization_never_fails (p : RustAnalyzerProject)
    (fs : String → Option String) :
    ∃ g, write_to_disk p fs = .ok g := by
  obtain ⟨bytes, hb⟩ := serde_json_to_vec_ok p
  simp only [write_to_disk, hb]
  exact ⟨_, rfl⟩

end Rustlings
